import Mathlib

/-!
Verification of the spreadsheet layout scanner and parameter-normalization
engine of the IGBT data-cleaning repository.  The definitions below are a
shallow embedding of `dc_processing/dc_cleaner.py` (the DC pipeline:
anchor location, parameter resolution, data slicing, merge formatting) and
`rg_processing/rg_cleaner.py` (the RG pipeline's clean-and-format step).
-/

namespace DataIGBT

/-- A spreadsheet cell: `none` is a missing value (pandas NaN), `some s` is
the cell's content as rendered by `str`. -/
abbrev Cell := Option String

/-- A spreadsheet grid as read by `pd.read_excel(header=None)`: a list of
rows of cells. -/
abbrev Grid := List (List Cell)

/-- Column count of the pandas frame built from the grid: rows are padded to
the longest row. -/
def ncols (g : Grid) : Nat := g.foldr (fun r acc => max r.length acc) 0

/-- `df.iloc[i, j]`: a position outside the stored row data is a missing
value (pandas pads ragged rows with NaN). -/
def getCell (g : Grid) (i j : Nat) : Cell :=
  match g.get? i with
  | none => none
  | some r =>
    match r.get? j with
    | none => none
    | some c => c

/-- Python `str.strip()`: drop whitespace from both ends. -/
def pyStrip (s : String) : String :=
  ⟨((s.data.dropWhile Char.isWhitespace).reverse.dropWhile Char.isWhitespace).reverse⟩

/-- Python `str.upper()` (over the ASCII letters the parameter names use). -/
def pyUpper (s : String) : String := ⟨s.data.map Char.toUpper⟩

/-- Linear search for the first index at or after `s`, among the next `n`
indices, satisfying `p`: models a Python `for` loop with `break`. -/
def findFrom (p : Nat → Bool) : Nat → Nat → Option Nat
  | 0, _ => none
  | n + 1, s => if p s then some s else findFrom p n (s + 1)

/-- The control-marker test of `extract_dc_data` at row index 1, column `j`:
`not pd.isna(val) and str(val).strip() == 'CONT'`. -/
def isContAt (g : Grid) (j : Nat) : Bool :=
  match getCell g 1 j with
  | none => false
  | some v => pyStrip v == "CONT"

/-- Locate the CONT column: scan the (padded) row of index 1 left to right
and take the first matching column. -/
def findContCol (g : Grid) : Option Nat := findFrom (isContAt g) (ncols g) 0

/-- Step 2 of `extract_dc_data`: collect `(column, trimmed name)` for every
non-missing, non-blank cell strictly to the right of the CONT column in the
row of index 1, skipping the `SAME` sentinel. -/
def collectTestParams (g : Grid) (contCol : Nat) : List (Nat × String) :=
  ((List.range (ncols g)).drop (contCol + 1)).filterMap (fun i =>
    match getCell g 1 i with
    | none => none
    | some v =>
      let p := pyStrip v
      if p = "" then none
      else if p = "SAME" then none
      else some (i, p))

/-- Greedy match of the regex fragment `\d+\.?\d*` at a position whose head
is a digit: a maximal digit run, an optional decimal point, a maximal digit
run. -/
def matchNumber (l : List Char) : String :=
  ⟨l.takeWhile Char.isDigit ++
    (match l.dropWhile Char.isDigit with
     | '.' :: r2 => '.' :: r2.takeWhile Char.isDigit
     | _ => [])⟩

/-- `re.search(r'(\d+\.?\d*)', s)`: the match at the first position where a
match starts, i.e. at the first digit. -/
def firstNumberAux : List Char → Option String
  | [] => none
  | c :: rest => if c.isDigit then some (matchNumber (c :: rest)) else firstNumberAux rest

/-- First decimal-number substring of a string, `None` when there is none. -/
def firstNumber (s : String) : Option String := firstNumberAux s.data

/-- `extract_test_condition_value`: read the test-condition row (row index 4)
at `param_col`, guard the row count and the column range, and extract the
first decimal-number substring of the trimmed cell text. -/
def extract_test_condition_value (g : Grid) (param_col : Nat) : Option String :=
  if g.length < 5 then none
  else if param_col < ncols g then
    match getCell g 4 param_col with
    | none => none
    | some v => firstNumber (pyStrip v)
  else none

/-- Unit lookup in the units row (row index 6): missing or blank means no
unit, otherwise the trimmed text. -/
def unitOf (g : Grid) (col : Nat) : Option String :=
  if col < ncols g then
    match getCell g 6 col with
    | none => none
    | some u => if pyStrip u = "" then none else some (pyStrip u)
  else none

/-- Step 4 of `extract_dc_data`: attach units and enrich IDSS/ISGS names
with the test-condition value (best effort: on failure the raw name is
kept). -/
def attachUnitEnrich (g : Grid) (tp : List (Nat × String)) :
    List (Nat × String × Option String) :=
  tp.map (fun cp =>
    let col := cp.1
    let param := cp.2
    let unit := unitOf g col
    if pyUpper param == "IDSS" || pyUpper param == "ISGS" then
      match extract_test_condition_value g col with
      | some tc => if tc = "" then (col, param, unit) else (col, param ++ tc, unit)
      | none => (col, param, unit)
    else (col, param, unit))

/-- Fuel-driven digit expansion; the fuel is an upper bound making the
recursion structural, any fuel above the argument gives the same digits. -/
def natDigitsAux : Nat → Nat → List Char
  | 0, _ => []
  | fuel + 1, n =>
    if n < 10 then [Nat.digitChar n]
    else natDigitsAux fuel (n / 10) ++ [Nat.digitChar (n % 10)]

/-- Decimal digit list of a natural number, most significant digit first:
the rendering Python f-strings use for the duplicate counters. -/
def natDigits (n : Nat) : List Char := natDigitsAux (n + 1) n

/-- Decimal string of a natural number. -/
def natRepr (n : Nat) : String := ⟨natDigits n⟩

/-- `f"{name}({unit})"` when a unit is present, bare name otherwise. -/
def unitParen (u : Option String) : String :=
  match u with
  | none => ""
  | some s => "(" ++ s ++ ")"

/-- `collections.Counter` lookup: occurrences of `p` in `l`. -/
def countOcc (l : List String) (p : String) : Nat :=
  (l.filter (fun q => q == p)).length

/-- Occurrences of `p` among the first `k` names: the counter value reached
by the numbering walk when it arrives at position `k`. -/
def occBefore (names : List String) (k : Nat) (p : String) : Nat :=
  countOcc (names.take k) p

/-- Step 5 of `extract_dc_data`: walk the enriched list keeping per-name
counters (`param_counters`, membership modelled as a positive counter);
a repeated name gets the incremented counter appended, a first occurrence of
a duplicated name gets `1` appended, a unique name is untouched; the unit
parenthesis is attached afterwards.  The source's two counter updates
(increment when present, set to `1` when absent) are both `seen + 1`. -/
def numberLoop (total : String → Nat) :
    List (Nat × String × Option String) → (String → Nat) → List (Nat × String)
  | [], _ => []
  | (col, param, unit) :: rest, counters =>
    let seen := counters param
    let numbered :=
      if 0 < seen then param ++ natRepr (seen + 1)
      else if 1 < total param then param ++ natRepr 1
      else param
    let counters' := fun q => if q = param then seen + 1 else counters q
    (col, numbered ++ unitParen unit) :: numberLoop total rest counters'

/-- Duplicate numbering over a full enriched list: totals from `Counter`,
then the counter walk starting from empty counters. -/
def numberParams (pairs : List (Nat × String × Option String)) : List (Nat × String) :=
  numberLoop (countOcc (pairs.map (fun x => x.2.1))) pairs (fun _ => 0)

/-- Failure modes of `extract_dc_data` (each is `return None` in the source,
with a distinct log message). -/
inductive ExtractErr
  | insufficientRows
  | noCont
  | insufficientRowsUnits
  | noTestNo
deriving DecidableEq, Repr

instance instDecEqExcept {ε α : Type} [DecidableEq ε] [DecidableEq α] :
    DecidableEq (Except ε α) := fun x y =>
  match x, y with
  | .error e, .error f =>
    if h : e = f then isTrue (by rw [h]) else isFalse (by simp [h])
  | .error _, .ok _ => isFalse (by simp)
  | .ok _, .error _ => isFalse (by simp)
  | .ok a, .ok b =>
    if h : a = b then isTrue (by rw [h]) else isFalse (by simp [h])

/-- Parameter resolution of `extract_dc_data` (steps 1-5): row-count guard,
CONT column, raw collection, units-row guard, unit attachment and
enrichment, duplicate numbering. -/
def resolveParams (g : Grid) : Except ExtractErr (List (Nat × String)) :=
  if g.length < 2 then .error .insufficientRows
  else
    match findContCol g with
    | none => .error .noCont
    | some cc =>
      if g.length < 7 then .error .insufficientRowsUnits
      else .ok (numberParams (attachUnitEnrich g (collectTestParams g cc)))

/-- Does row `i` hold a non-missing cell whose text contains `"Test No"`? -/
def rowHasTestNo (g : Grid) (i : Nat) : Bool :=
  (List.range (ncols g)).any (fun j =>
    match getCell g i j with
    | none => false
    | some v => decide ("Test No".data <:+: v.data))

/-- Step 6 of `extract_dc_data`: first row, top to bottom, holding a cell
that contains `"Test No"`. -/
def findTestNoRow (g : Grid) : Option Nat := findFrom (rowHasTestNo g) g.length 0

/-- Python dict write `d[k] = v`: overwrite in place when the key exists,
append at the end otherwise. -/
def dictInsert (d : List (String × Cell)) (k : String) (v : Cell) :
    List (String × Cell) :=
  if d.any (fun kv => kv.1 == k) then
    d.map (fun kv => if kv.1 == k then (k, v) else kv)
  else d ++ [(k, v)]

/-- One output row of step 7 of `extract_dc_data`: `{'lot_ID': lot_id}`
followed by one verbatim grid cell per resolved parameter. -/
def buildRow (g : Grid) (lot : String) (fp : List (Nat × String)) (r : Nat) :
    List (String × Cell) :=
  fp.foldl (fun d cn => dictInsert d cn.2 (getCell g r cn.1)) [("lot_ID", some lot)]

/-- Step 7 of `extract_dc_data`: one output row per grid row from `startRow`
to the last grid row. -/
def extractRows (g : Grid) (lot : String) (fp : List (Nat × String)) (startRow : Nat) :
    List (List (String × Cell)) :=
  (List.range (g.length - startRow)).map (fun k => buildRow g lot fp (startRow + k))

/-- `extract_dc_data` on one grid, with the batch id already derived from
the file name by `extract_batch_info`. -/
def extract_dc_data (g : Grid) (lot : String) :
    Except ExtractErr (List (List (String × Cell))) :=
  match resolveParams g with
  | .error e => .error e
  | .ok fp =>
    match findTestNoRow g with
    | none => .error .noTestNo
    | some tr => .ok (extractRows g lot fp (tr + 1))

/-- The enriched-but-not-yet-numbered parameter list of one grid (the value
of `param_unit_pairs` inside `extract_dc_data`). -/
def pairsOf (g : Grid) : List (Nat × String × Option String) :=
  match findContCol g with
  | none => []
  | some cc => attachUnitEnrich g (collectTestParams g cc)

/-- `astype(str)` on one pandas cell. -/
def astypeStr (c : Option String) : Option String :=
  match c with
  | none => some "nan"
  | some s => some s

/-- `clean_and_format_dc` on the merged table, a row being its `lot_ID`
cell plus the remaining columns: return unchanged when empty, insert
`NUM = 1..M`, drop rows whose `lot_ID` is missing, stringify `lot_ID`, and
put `NUM` and `lot_ID` first (encoded by the tuple shape). -/
def clean_and_format_dc (rows : List (Option String × List (String × Cell))) :
    List (Nat × Option String × List (String × Cell)) :=
  if rows.isEmpty then []
  else
    let withNum := ((List.range rows.length).map (fun i => i + 1)).zip rows
    let filtered := withNum.filter (fun x => !x.2.1.isNone)
    filtered.map (fun x => (x.1, astypeStr x.2.1, x.2.2))

/-- `clean_and_format_rg` on the merged RG table, a row being its `lot_ID`
and its `RG(R)` value: return unchanged when empty, number the rows, keep
values strictly between 0 and 1000 (two successive filters), then renumber
the survivors `1..N`. -/
def clean_and_format_rg (rows : List (String × ℚ)) : List (Nat × String × ℚ) :=
  if rows.isEmpty then []
  else
    let withNum := ((List.range rows.length).map (fun i => i + 1)).zip rows
    let f1 := withNum.filter (fun r => decide (0 < r.2.2))
    let f2 := f1.filter (fun r => decide (r.2.2 < 1000))
    ((List.range f2.length).map (fun i => i + 1)).zip f2 |>.map (fun p => (p.1, p.2.2))

/-- Modelled from the spec: the numeric-parsing predicate of the coercion
step the spec's Data Slicer describes (the source's `extract_dc_data` has no
coercion step).  A trimmed cell text parses as numeric when, after an
optional sign, it consists of digits and at most one decimal point, with at
least one digit. -/
def specIsNumeric (s : String) : Bool :=
  let t := (pyStrip s).data
  let t := match t with
    | '-' :: r => r
    | '+' :: r => r
    | _ => t
  t.any Char.isDigit && t.all (fun c => c.isDigit || c == '.') &&
    (t.filter (fun c => c == '.')).length ≤ 1

/-! ### Search characterization -/

theorem findFrom_eq_none (p : Nat → Bool) :
    ∀ n s : Nat, (∀ i, s ≤ i → i < s + n → p i = false) → findFrom p n s = none := by
  intro n
  induction n with
  | zero => intro s _; rfl
  | succ n ih =>
    intro s h
    have hp : p s = false := h s le_rfl (by omega)
    simp only [findFrom, hp, Bool.false_eq_true, if_false]
    exact ih (s + 1) (fun i h1 h2 => h i (by omega) (by omega))

theorem findFrom_eq_some (p : Nat → Bool) :
    ∀ n s r : Nat, findFrom p n s = some r →
      s ≤ r ∧ r < s + n ∧ p r = true ∧ ∀ i, s ≤ i → i < r → p i = false := by
  intro n
  induction n with
  | zero => intro s r h; exact absurd h (by simp [findFrom])
  | succ n ih =>
    intro s r h
    simp only [findFrom] at h
    by_cases hp : p s
    · rw [if_pos hp] at h
      obtain rfl : s = r := by injection h
      exact ⟨le_rfl, by omega, hp, fun i h1 h2 => absurd h1 (by omega)⟩
    · rw [if_neg hp] at h
      obtain ⟨h1, h2, h3, h4⟩ := ih (s + 1) r h
      refine ⟨by omega, by omega, h3, fun i hi1 hi2 => ?_⟩
      rcases Nat.eq_or_lt_of_le hi1 with rfl | hlt
      · exact Bool.eq_false_iff.mpr hp
      · exact h4 i (by omega) hi2

theorem findFrom_le (p : Nat → Bool) :
    ∀ n s j : Nat, s ≤ j → j < s + n → p j = true →
      ∃ r, findFrom p n s = some r ∧ r ≤ j := by
  intro n
  induction n with
  | zero => intro s j h1 h2 _; omega
  | succ n ih =>
    intro s j h1 h2 h3
    by_cases hp : p s
    · exact ⟨s, by simp [findFrom, hp], h1⟩
    · have hsj : s ≠ j := fun e => hp (e ▸ h3)
      obtain ⟨r, hr, hrj⟩ := ih (s + 1) j (by omega) (by omega) h3
      exact ⟨r, by simp [findFrom, hp, hr], hrj⟩

/-! ### Decimal rendering of counters -/

theorem natDigitsAux_congr :
    ∀ f f' n : Nat, n < f → n < f' → natDigitsAux f n = natDigitsAux f' n := by
  intro f
  induction f with
  | zero => intro f' n h; omega
  | succ f ih =>
    intro f' n h h'
    cases f' with
    | zero => omega
    | succ f' =>
      simp only [natDigitsAux]
      by_cases h10 : n < 10
      · simp [h10]
      · have hd : n / 10 < n := Nat.div_lt_self (by omega) (by omega)
        simp only [h10, if_false]
        rw [ih f' (n / 10) (by omega) (by omega)]

theorem natDigits_unfold (n : Nat) :
    natDigits n = if n < 10 then [Nat.digitChar n]
      else natDigits (n / 10) ++ [Nat.digitChar (n % 10)] := by
  unfold natDigits
  conv_lhs => rw [natDigitsAux]
  by_cases h : n < 10
  · simp [h]
  · have hd : n / 10 < n := Nat.div_lt_self (by omega) (by omega)
    simp only [h, if_false]
    rw [natDigitsAux_congr n (n / 10 + 1) (n / 10) (by omega) (by omega)]

theorem natDigits_ne_nil (n : Nat) : natDigits n ≠ [] := by
  rw [natDigits_unfold]
  by_cases h : n < 10 <;> simp [h]

theorem digitChar_isDigit : ∀ m, m < 10 → (Nat.digitChar m).isDigit = true := by decide

theorem digitChar_injOn :
    ∀ a, a < 10 → ∀ b, b < 10 → Nat.digitChar a = Nat.digitChar b → a = b := by decide

theorem natDigits_isDigit (n : Nat) : ∀ c ∈ natDigits n, c.isDigit = true := by
  induction n using Nat.strong_induction_on with
  | _ n ih =>
    rw [natDigits_unfold]
    by_cases h : n < 10
    · simp only [h, if_true, List.mem_singleton]
      intro c hc
      rw [hc]
      exact digitChar_isDigit n h
    · simp only [h, if_false]
      intro c hc
      rcases List.mem_append.mp hc with h1 | h2
      · exact ih (n / 10) (Nat.div_lt_self (by omega) (by omega)) c h1
      · rw [List.mem_singleton.mp h2]
        exact digitChar_isDigit _ (Nat.mod_lt _ (by omega))

theorem natDigits_inj : ∀ m n : Nat, natDigits m = natDigits n → m = n := by
  intro m
  induction m using Nat.strong_induction_on with
  | _ m ih =>
    intro n h
    rw [natDigits_unfold m, natDigits_unfold n] at h
    by_cases hm : m < 10 <;> by_cases hn : n < 10
    · simp only [hm, hn, if_true, List.cons.injEq] at h
      exact digitChar_injOn m hm n hn h.1
    · simp only [hm, hn, if_true, if_false] at h
      have hlen := congrArg List.length h
      simp only [List.length_singleton, List.length_append] at hlen
      have h0 : natDigits (n / 10) = [] :=
        List.length_eq_zero.mp (by omega)
      exact absurd h0 (natDigits_ne_nil _)
    · simp only [hm, hn, if_true, if_false] at h
      have hlen := congrArg List.length h
      simp only [List.length_singleton, List.length_append] at hlen
      have h0 : natDigits (m / 10) = [] :=
        List.length_eq_zero.mp (by omega)
      exact absurd h0 (natDigits_ne_nil _)
    · simp only [hm, hn, if_false] at h
      have hlen := congrArg List.length h
      simp only [List.length_append, List.length_singleton] at hlen
      obtain ⟨h1, h2⟩ := List.append_inj h (by omega)
      have e1 := ih (m / 10) (Nat.div_lt_self (by omega) (by omega)) (n / 10) h1
      have e2 : m % 10 = n % 10 :=
        digitChar_injOn (m % 10) (Nat.mod_lt _ (by omega)) (n % 10)
          (Nat.mod_lt _ (by omega)) (by simpa using h2)
      omega

/-! ### Final names with distinct counters are distinct strings -/

theorem digits_append_cancel :
    ∀ d1 d2 t1 t2 : List Char,
      (∀ c ∈ d1, c.isDigit = true) → (∀ c ∈ d2, c.isDigit = true) →
      (∀ c, t1.head? = some c → c.isDigit = false) →
      (∀ c, t2.head? = some c → c.isDigit = false) →
      d1 ++ t1 = d2 ++ t2 → d1 = d2 := by
  intro d1
  induction d1 with
  | nil =>
    intro d2 t1 t2 _ hd2 ht1 _ h
    cases d2 with
    | nil => rfl
    | cons c d2' =>
      simp only [List.nil_append, List.cons_append] at h
      have hh : t1.head? = some c := by rw [h]; rfl
      have h1 := ht1 c hh
      have h2 := hd2 c (by simp)
      rw [h2] at h1
      cases h1
  | cons a d1' ih =>
    intro d2 t1 t2 hd1 hd2 ht1 ht2 h
    cases d2 with
    | nil =>
      simp only [List.cons_append, List.nil_append] at h
      have hh : t2.head? = some a := by rw [← h]; rfl
      have h1 := ht2 a hh
      have h2 := hd1 a (by simp)
      rw [h2] at h1
      cases h1
    | cons b d2' =>
      simp only [List.cons_append, List.cons.injEq] at h
      obtain ⟨rfl, h2⟩ := h
      rw [ih d2' t1 t2 (fun c hc => hd1 c (by simp [hc]))
        (fun c hc => hd2 c (by simp [hc])) ht1 ht2 h2]

theorem unitParen_head_not_digit (u : Option String) :
    ∀ c, (unitParen u).data.head? = some c → c.isDigit = false := by
  cases u with
  | none => intro c h; cases h
  | some s =>
    intro c h
    have hd : (unitParen (some s)).data = '(' :: (s.data ++ [')']) := rfl
    rw [hd] at h
    obtain rfl : '(' = c := by injection h
    rfl

theorem natRepr_data (n : Nat) : (natRepr n).data = natDigits n := rfl

theorem string_append_data (p q : String) : (p ++ q).data = p.data ++ q.data := rfl

theorem finalName_ne (p : String) (i j : Nat) (u v : Option String) (hij : i ≠ j) :
    p ++ natRepr i ++ unitParen u ≠ p ++ natRepr j ++ unitParen v := by
  intro h
  have hd := congrArg String.data h
  rw [string_append_data, string_append_data, string_append_data,
    string_append_data, natRepr_data, natRepr_data, List.append_assoc,
    List.append_assoc] at hd
  have h2 := List.append_cancel_left hd
  have h3 : natDigits i = natDigits j :=
    digits_append_cancel _ _ _ _ (natDigits_isDigit i) (natDigits_isDigit j)
      (unitParen_head_not_digit u) (unitParen_head_not_digit v) h2
  exact hij (natDigits_inj _ _ h3)

/-! ### Counting occurrences -/

theorem countOcc_cons (a : String) (l : List String) (p : String) :
    countOcc (a :: l) p = (if a = p then 1 else 0) + countOcc l p := by
  simp only [countOcc, List.filter_cons]
  by_cases h : a = p
  · simp [h]
    omega
  · simp [h]

theorem occBefore_zero (names : List String) (p : String) : occBefore names 0 p = 0 := rfl

theorem occBefore_cons_succ (a : String) (l : List String) (k : Nat) (p : String) :
    occBefore (a :: l) (k + 1) p = (if a = p then 1 else 0) + occBefore l k p := by
  simp only [occBefore, List.take_succ_cons]
  exact countOcc_cons a (l.take k) p

theorem occBefore_succ_of_get? (names : List String) (k : Nat) (p : String)
    (h : names.get? k = some p) :
    occBefore names (k + 1) p = occBefore names k p + 1 := by
  have h' : names[k]? = some p := by
    rw [← List.get?_eq_getElem?]
    exact h
  simp only [occBefore, List.take_succ, h', Option.toList_some]
  simp only [countOcc, List.filter_append, List.length_append]
  simp

theorem occBefore_mono (names : List String) (k l : Nat) (p : String) (h : k ≤ l) :
    occBefore names k p ≤ occBefore names l p := by
  simp only [occBefore, countOcc]
  have htk : names.take k = (names.take l).take k := by
    rw [List.take_take, Nat.min_eq_left h]
  rw [htk]
  exact List.Sublist.length_le
    (List.Sublist.filter _ (List.take_sublist _ _))

theorem occBefore_le_countOcc (names : List String) (k : Nat) (p : String) :
    occBefore names k p ≤ countOcc names p := by
  simp only [occBefore, countOcc]
  exact List.Sublist.length_le
    (List.Sublist.filter _ (List.take_sublist _ _))

theorem occBefore_lt_countOcc (names : List String) (k : Nat) (p : String)
    (h : names.get? k = some p) :
    occBefore names k p < countOcc names p := by
  have h1 : occBefore names (k + 1) p = occBefore names k p + 1 :=
    occBefore_succ_of_get? names k p h
  have h2 := occBefore_le_countOcc names (k + 1) p
  omega

/-! ### Characterization of the duplicate-numbering walk -/

theorem numberLoop_get? (total : String → Nat) :
    ∀ (pairs : List (Nat × String × Option String)) (counters : String → Nat)
      (k c : Nat) (p : String) (u : Option String),
      pairs.get? k = some (c, p, u) →
      (numberLoop total pairs counters).get? k =
        some (c,
          (if 0 < counters p + occBefore (pairs.map (fun x => x.2.1)) k p then
            p ++ natRepr (counters p + occBefore (pairs.map (fun x => x.2.1)) k p + 1)
          else if 1 < total p then p ++ natRepr 1
          else p) ++ unitParen u) := by
  intro pairs
  induction pairs with
  | nil => intro counters k c p u h; cases h
  | cons hd rest ih =>
    obtain ⟨c0, p0, u0⟩ := hd
    intro counters k c p u h
    cases k with
    | zero =>
      simp only [List.get?_cons_zero, Option.some.injEq, Prod.mk.injEq] at h
      obtain ⟨rfl, rfl, rfl⟩ := h
      simp only [numberLoop, List.get?_cons_zero, List.map_cons, occBefore_zero,
        Nat.add_zero]
    | succ k =>
      rw [List.get?_cons_succ] at h
      simp only [numberLoop, List.get?_cons_succ, List.map_cons]
      rw [ih (fun q => if q = p0 then counters p0 + 1 else counters q) k c p u h]
      have key : (if p = p0 then counters p0 + 1 else counters p) +
          occBefore (rest.map (fun x => x.2.1)) k p =
          counters p + occBefore (p0 :: rest.map (fun x => x.2.1)) (k + 1) p := by
        rw [occBefore_cons_succ]
        by_cases hp : p = p0
        · subst hp
          simp
          try omega
        · have hps : p0 ≠ p := Ne.symm hp
          simp [hp, hps]
      rw [key]

/-- Unpacking a successful parameter resolution. -/
theorem resolveParams_ok (g : Grid) (out : List (Nat × String))
    (h : resolveParams g = .ok out) :
    2 ≤ g.length ∧ 7 ≤ g.length ∧
      ∃ cc, findContCol g = some cc ∧
        pairsOf g = attachUnitEnrich g (collectTestParams g cc) ∧
        out = numberParams (pairsOf g) := by
  unfold resolveParams at h
  by_cases h2 : g.length < 2
  · rw [if_pos h2] at h; cases h
  · rw [if_neg h2] at h
    cases hcc : findContCol g with
    | none => rw [hcc] at h; cases h
    | some cc =>
      rw [hcc] at h
      have h' : (if g.length < 7 then
            (Except.error ExtractErr.insufficientRowsUnits :
              Except ExtractErr (List (Nat × String)))
          else .ok (numberParams (attachUnitEnrich g (collectTestParams g cc)))) =
          .ok out := h
      clear h
      by_cases h7 : g.length < 7
      · rw [if_pos h7] at h'; cases h'
      · rw [if_neg h7] at h'
        have hpairs : pairsOf g = attachUnitEnrich g (collectTestParams g cc) := by
          simp [pairsOf, hcc]
        refine ⟨by omega, by omega, cc, rfl, hpairs, ?_⟩
        rw [hpairs]
        injection h' with h''
        exact h''.symm

/-! ### Enrichment support -/

theorem firstNumberAux_ne_empty :
    ∀ (l : List Char) (t : String), firstNumberAux l = some t → t ≠ "" := by
  intro l
  induction l with
  | nil => intro t h; cases h
  | cons c rest ih =>
    intro t h
    simp only [firstNumberAux] at h
    by_cases hc : c.isDigit
    · rw [if_pos hc] at h
      injection h with h
      subst h
      intro he
      have hd := congrArg String.data he
      simp only [matchNumber, List.takeWhile_cons, hc, if_true] at hd
      cases hd
    · rw [if_neg hc] at h
      exact ih t h

theorem extract_tc_ne_empty (g : Grid) (col : Nat) (tc : String)
    (h : extract_test_condition_value g col = some tc) : tc ≠ "" := by
  unfold extract_test_condition_value at h
  by_cases h5 : g.length < 5
  · rw [if_pos h5] at h; cases h
  · rw [if_neg h5] at h
    by_cases hc : col < ncols g
    · rw [if_pos hc] at h
      cases hcell : getCell g 4 col with
      | none => rw [hcell] at h; cases h
      | some v =>
        rw [hcell] at h
        exact firstNumberAux_ne_empty _ _ h
    · rw [if_neg hc] at h; cases h

/-! ### Claim theorems -/

/-- C6: for every grid whose designated second row has no cell trimming
exactly (case-sensitively) to the marker token `CONT`, extraction fails with
the missing-anchor outcome and no ParameterSpec list is produced; when
matches exist, scanning left to right picks the first matching column. -/
theorem c6_control_marker_anchor (g : Grid) (lot : String) :
    (2 ≤ g.length → (∀ j, j < ncols g → isContAt g j = false) →
      resolveParams g = .error .noCont ∧ extract_dc_data g lot = .error .noCont) ∧
    (∀ j, findContCol g = some j →
      isContAt g j = true ∧ ∀ i, i < j → isContAt g i = false) ∧
    (∀ j, j < ncols g → isContAt g j = true →
      ∃ r, findContCol g = some r ∧ r ≤ j) := by
  refine ⟨?_, ?_, ?_⟩
  · intro h2 hnone
    have hfc : findContCol g = none := by
      unfold findContCol
      exact findFrom_eq_none _ _ _ (fun i _ hi => hnone i (by omega))
    have hr : resolveParams g = .error .noCont := by
      unfold resolveParams
      rw [if_neg (by omega), hfc]
    refine ⟨hr, ?_⟩
    unfold extract_dc_data
    rw [hr]
  · intro j hj
    obtain ⟨h1, _, h3, h4⟩ := findFrom_eq_some _ _ _ _ hj
    exact ⟨h3, fun i hij => h4 i (by omega) hij⟩
  · intro j hjn hj
    obtain ⟨r, hr, hrle⟩ := findFrom_le _ (ncols g) 0 j (by omega) (by omega) hj
    exact ⟨r, hr, hrle⟩

/-- Witness for C6 at a concrete grid with two rows and no `CONT` cell. -/
theorem c6_witness :
    resolveParams [[], [some "X"]] = .error .noCont ∧
    extract_dc_data [[], [some "X"]] "L" = .error .noCont :=
  (c6_control_marker_anchor [[], [some "X"]] "L").1 (by decide)
    (by decide)

/-- C9: the parameter resolution (and the whole per-file extraction) is
a pure, deterministic function of the grid contents: two runs on equal
grids produce equal results. -/
theorem c9_resolver_deterministic (g1 g2 : Grid) (lot : String) (h : g1 = g2) :
    resolveParams g1 = resolveParams g2 ∧
    extract_dc_data g1 lot = extract_dc_data g2 lot := by
  subst h
  exact ⟨rfl, rfl⟩

/-- Witness for C9 at a concrete grid. -/
theorem c9_witness :
    resolveParams [[], [some "CONT", some "VGS"], [], [], [], [], []] =
      resolveParams [[], [some "CONT", some "VGS"], [], [], [], [], []] ∧
    extract_dc_data [[], [some "CONT", some "VGS"], [], [], [], [], []] "L" =
      extract_dc_data [[], [some "CONT", some "VGS"], [], [], [], [], []] "L" :=
  c9_resolver_deterministic _ _ "L" rfl

/-- C8: raw names matching IDSS/ISGS case-insensitively are enriched by
appending the first decimal-number substring of the test-condition row's
cell in the same column, before unit attachment; a missing cell, an
out-of-range column, a short grid, or a cell without a numeric substring
leaves the raw name unchanged, and enrichment never fails. -/
theorem c8_test_condition_enrichment (g : Grid) (tp : List (Nat × String))
    (k col : Nat) (p : String) (h : tp.get? k = some (col, p)) :
    ((pyUpper p = "IDSS" ∨ pyUpper p = "ISGS") →
      ∀ tc, extract_test_condition_value g col = some tc →
        (attachUnitEnrich g tp).get? k = some (col, p ++ tc, unitOf g col)) ∧
    (extract_test_condition_value g col = none →
      (attachUnitEnrich g tp).get? k = some (col, p, unitOf g col)) ∧
    (pyUpper p ≠ "IDSS" → pyUpper p ≠ "ISGS" →
      (attachUnitEnrich g tp).get? k = some (col, p, unitOf g col)) ∧
    (g.length < 5 → extract_test_condition_value g col = none) ∧
    (ncols g ≤ col → extract_test_condition_value g col = none) ∧
    (getCell g 4 col = none → extract_test_condition_value g col = none) ∧
    (5 ≤ g.length → col < ncols g → ∀ s, getCell g 4 col = some s →
      extract_test_condition_value g col = firstNumber (pyStrip s)) := by
  have base : (attachUnitEnrich g tp).get? k = some (
      if pyUpper p == "IDSS" || pyUpper p == "ISGS" then
        match extract_test_condition_value g col with
        | some tc =>
          if tc = "" then (col, p, unitOf g col) else (col, p ++ tc, unitOf g col)
        | none => (col, p, unitOf g col)
      else (col, p, unitOf g col)) := by
    unfold attachUnitEnrich
    rw [List.get?_map, h]
    rfl
  refine ⟨?_, ?_, ?_, ?_, ?_, ?_, ?_⟩
  · intro hup tc htc
    rw [base]
    have hb : (pyUpper p == "IDSS" || pyUpper p == "ISGS") = true := by
      rcases hup with h' | h' <;> simp [h']
    rw [hb, htc]
    simp [extract_tc_ne_empty g col tc htc]
  · intro htc
    rw [base, htc]
    by_cases hb : (pyUpper p == "IDSS" || pyUpper p == "ISGS") = true
    · rw [hb]; rfl
    · rw [Bool.eq_false_iff.mpr hb]; rfl
  · intro h1 h2
    rw [base]
    have hb : (pyUpper p == "IDSS" || pyUpper p == "ISGS") = false := by
      simp [h1, h2]
    rw [hb]
    rfl
  · intro h5
    unfold extract_test_condition_value
    rw [if_pos h5]
  · intro hc
    unfold extract_test_condition_value
    by_cases h5 : g.length < 5
    · rw [if_pos h5]
    · rw [if_neg h5, if_neg (by omega)]
  · intro hcell
    unfold extract_test_condition_value
    by_cases h5 : g.length < 5
    · rw [if_pos h5]
    · rw [if_neg h5]
      by_cases hcol : col < ncols g
      · rw [if_pos hcol, hcell]
      · rw [if_neg hcol]
  · intro h5 hcol s hcell
    unfold extract_test_condition_value
    rw [if_neg (by omega), if_pos hcol, hcell]

/-- Witness for C8 at a concrete grid: raw name `idss` (case-insensitive
match), test-condition cell `(VDS)40.0V`, enrichment appends `40.0`. -/
theorem c8_witness :
    (attachUnitEnrich [[], [some "CONT", some "idss"], [], [],
        [none, some "(VDS)40.0V"], [], []] [(1, "idss")]).get? 0 =
      some (1, "idss" ++ "40.0",
        unitOf [[], [some "CONT", some "idss"], [], [],
          [none, some "(VDS)40.0V"], [], []] 1) :=
  (c8_test_condition_enrichment
      [[], [some "CONT", some "idss"], [], [], [none, some "(VDS)40.0V"], [], []]
      [(1, "idss")] 0 1 "idss" (by decide)).1
    (Or.inl (by decide)) "40.0" (by decide)

/-- C5 (amended): the duplicate counter is appended directly to the
enriched name *before* the unit parenthesis (`name2(unit)`, no underscore),
starting at 1 for the first occurrence of a duplicated name and
incrementing per repeat in column order; names occurring exactly once get
no suffix. -/
theorem c5_counter_suffix_before_unit (g : Grid) (out : List (Nat × String))
    (hok : resolveParams g = .ok out) (k c : Nat) (p : String) (u : Option String)
    (hp : (pairsOf g).get? k = some (c, p, u)) :
    out.get? k = some (c,
      (if 1 < countOcc ((pairsOf g).map (fun x => x.2.1)) p then
        p ++ natRepr (occBefore ((pairsOf g).map (fun x => x.2.1)) k p + 1)
      else p) ++ unitParen u) := by
  obtain ⟨-, -, cc, -, -, hout⟩ := resolveParams_ok g out hok
  subst hout
  unfold numberParams
  rw [numberLoop_get? _ _ _ k c p u hp]
  simp only [Nat.zero_add]
  have hget : ((pairsOf g).map (fun x => x.2.1)).get? k = some p := by
    rw [List.get?_map, hp]; rfl
  by_cases h0 : 0 < occBefore ((pairsOf g).map (fun x => x.2.1)) k p
  · have hcount : 1 < countOcc ((pairsOf g).map (fun x => x.2.1)) p := by
      have := occBefore_lt_countOcc _ k p hget
      omega
    rw [if_pos h0, if_pos hcount]
  · have h00 : occBefore ((pairsOf g).map (fun x => x.2.1)) k p = 0 := by omega
    rw [if_neg h0, h00]

/-- Counterexample to C5 as stated: with raw names `VTH`, `VTH` and unit
`V`, the resolver renders `VTH1(V)` and `VTH2(V)` — the counter sits before
the unit parenthesis, not after it. -/
theorem c5_counterexample :
    resolveParams [[], [some "CONT", some "VTH", some "VTH"], [], [], [], [],
        [none, some "V", some "V"]] =
      .ok [(1, "VTH1(V)"), (2, "VTH2(V)")] ∧
    "VTH1(V)" ≠ "VTH(V)1" ∧ "VTH1(V)" ≠ "VTH(V)_1" ∧
    "VTH2(V)" ≠ "VTH(V)2" ∧ "VTH2(V)" ≠ "VTH(V)_2" :=
  ⟨by decide, by decide, by decide, by decide, by decide⟩

/-- Witness for C5 (amended) at the same concrete grid, position 0. -/
theorem c5_witness :
    [(1, "VTH1(V)"), (2, "VTH2(V)")].get? 0 = some (1,
      (if 1 < countOcc ((pairsOf [[], [some "CONT", some "VTH", some "VTH"],
            [], [], [], [], [none, some "V", some "V"]]).map (fun x => x.2.1)) "VTH" then
        "VTH" ++ natRepr (occBefore ((pairsOf [[], [some "CONT", some "VTH", some "VTH"],
            [], [], [], [], [none, some "V", some "V"]]).map (fun x => x.2.1)) 0 "VTH" + 1)
      else "VTH") ++ unitParen (some "V")) :=
  c5_counter_suffix_before_unit _ _ (by decide) 0 1 "VTH" (some "V") (by decide)

/-- C1 (amended): two entries of one resolved list that came from the
same enriched name always receive distinct final names (distinct counter
suffixes); distinct enriched names may still collide after numbering. -/
theorem c1_final_names_distinct_within_group (g : Grid) (out : List (Nat × String))
    (hok : resolveParams g = .ok out) (k l a b : Nat) (p : String)
    (u v : Option String) (hkl : k < l)
    (hk : (pairsOf g).get? k = some (a, p, u))
    (hl : (pairsOf g).get? l = some (b, p, v)) :
    (out.map Prod.snd).get? k ≠ (out.map Prod.snd).get? l := by
  obtain ⟨-, -, cc, -, -, hout⟩ := resolveParams_ok g out hok
  subst hout
  unfold numberParams
  have hgk : ((pairsOf g).map (fun x => x.2.1)).get? k = some p := by
    rw [List.get?_map, hk]; rfl
  have hgl : ((pairsOf g).map (fun x => x.2.1)).get? l = some p := by
    rw [List.get?_map, hl]; rfl
  have hstep : occBefore ((pairsOf g).map (fun x => x.2.1)) k p <
      occBefore ((pairsOf g).map (fun x => x.2.1)) l p := by
    have h1 := occBefore_succ_of_get? _ k p hgk
    have h2 := occBefore_mono ((pairsOf g).map (fun x => x.2.1)) (k + 1) l p hkl
    omega
  have hcount : 1 < countOcc ((pairsOf g).map (fun x => x.2.1)) p := by
    have h1 := occBefore_lt_countOcc _ l p hgl
    omega
  have hmerge : ∀ (m e : Nat) (w : Option String),
      (pairsOf g).get? m = some (e, p, w) →
      (numberLoop (countOcc ((pairsOf g).map (fun x => x.2.1))) (pairsOf g)
          (fun _ => 0)).get? m =
        some (e, (p ++ natRepr (occBefore ((pairsOf g).map (fun x => x.2.1)) m p + 1))
          ++ unitParen w) := by
    intro m e w hm
    rw [numberLoop_get? _ _ _ m e p w hm]
    simp only [Nat.zero_add]
    by_cases h0 : 0 < occBefore ((pairsOf g).map (fun x => x.2.1)) m p
    · rw [if_pos h0]
    · have h00 : occBefore ((pairsOf g).map (fun x => x.2.1)) m p = 0 := by omega
      rw [if_neg h0, h00, if_pos hcount]
  rw [List.get?_map, List.get?_map, hmerge k a u hk, hmerge l b v hl]
  intro he
  have he' : (p ++ natRepr (occBefore ((pairsOf g).map (fun x => x.2.1)) k p + 1))
        ++ unitParen u =
      (p ++ natRepr (occBefore ((pairsOf g).map (fun x => x.2.1)) l p + 1))
        ++ unitParen v := Option.some.inj he
  exact finalName_ne p (occBefore ((pairsOf g).map (fun x => x.2.1)) k p + 1)
    (occBefore ((pairsOf g).map (fun x => x.2.1)) l p + 1) u v (by omega) he'

/-- Counterexample to C1 as stated: raw names `VTH`, `VTH`, `VTH1` resolve
to final names `VTH1`, `VTH2`, `VTH1` — the first and third entries share a
final name. -/
theorem c1_counterexample :
    resolveParams [[], [some "CONT", some "VTH", some "VTH", some "VTH1"],
        [], [], [], [], []] =
      .ok [(1, "VTH1"), (2, "VTH2"), (3, "VTH1")] ∧
    ¬ ([(1, "VTH1"), (2, "VTH2"), (3, "VTH1")].map Prod.snd).Nodup :=
  ⟨by decide, by decide⟩

/-- Witness for C1 (amended) at the same concrete grid, positions 0 and 1
(both enriched name `VTH`). -/
theorem c1_witness :
    ([(1, "VTH1"), (2, "VTH2"), (3, "VTH1")].map Prod.snd).get? 0 ≠
      ([(1, "VTH1"), (2, "VTH2"), (3, "VTH1")].map Prod.snd).get? 1 :=
  c1_final_names_distinct_within_group
    [[], [some "CONT", some "VTH", some "VTH", some "VTH1"], [], [], [], [], []]
    _ (by decide) 0 1 1 2 "VTH" none none (by decide) (by decide) (by decide)

/-- C4 (amended): no adjacent-pair relabeling exists — when the
enriched list is exactly two adjacent columns carrying the same enriched
name, no family-token substitution happens; instead the duplicate-numbering
step keeps both entries, suffixing the left one with 1 and the right one
with 2. -/
theorem c4_adjacent_duplicates_numbered (g : Grid) (out : List (Nat × String))
    (c : Nat) (p : String) (u v : Option String)
    (hok : resolveParams g = .ok out)
    (hpairs : pairsOf g = [(c, p, u), (c + 1, p, v)]) :
    out = [(c, (p ++ natRepr 1) ++ unitParen u),
           (c + 1, (p ++ natRepr 2) ++ unitParen v)] := by
  obtain ⟨-, -, cc, -, -, hout⟩ := resolveParams_ok g out hok
  subst hout
  rw [hpairs]
  simp only [numberParams, numberLoop, countOcc, List.map_cons, List.map_nil,
    List.filter_cons, beq_self_eq_true, if_pos rfl, List.filter_nil]
  norm_num

/-- Counterexample to C4 as stated: two adjacent columns both enriched to
`ISGS40.0` yield `ISGS40.01` and `ISGS40.02`; no `IGSS` name is ever
produced. -/
theorem c4_counterexample :
    pairsOf [[], [some "CONT", some "ISGS", some "ISGS"], [], [],
        [none, some "40.0", some "40.0"], [], []] =
      [(1, "ISGS40.0", none), (2, "ISGS40.0", none)] ∧
    resolveParams [[], [some "CONT", some "ISGS", some "ISGS"], [], [],
        [none, some "40.0", some "40.0"], [], []] =
      .ok [(1, "ISGS40.01"), (2, "ISGS40.02")] ∧
    "ISGS40.01" ≠ "IGSS40.0" ∧ "ISGS40.02" ≠ "ISGS40.0" :=
  ⟨by decide, by decide, by decide, by decide⟩

/-- Witness for C4 (amended) at the same concrete grid. -/
theorem c4_witness :
    [(1, "ISGS40.01"), (2, "ISGS40.02")] =
      [(1, ("ISGS40.0" ++ natRepr 1) ++ unitParen none),
       (2, ("ISGS40.0" ++ natRepr 2) ++ unitParen none)] :=
  c4_adjacent_duplicates_numbered
    [[], [some "CONT", some "ISGS", some "ISGS"], [], [],
      [none, some "40.0", some "40.0"], [], []]
    _ 1 "ISGS40.0" none none (by decide) (by decide)

/-- C7: the header-row anchor is the first row, scanning top to bottom
(and cells left to right), holding a cell whose text contains `Test No` as
a substring; the data region is the rows strictly after it up to the last
grid row; with no match anywhere, extraction fails with the missing-anchor
outcome. -/
theorem c7_header_row_anchor (g : Grid) (lot : String) :
    (∀ r, findTestNoRow g = some r →
      rowHasTestNo g r = true ∧ ∀ i, i < r → rowHasTestNo g i = false) ∧
    (∀ r fp, resolveParams g = .ok fp → findTestNoRow g = some r →
      extract_dc_data g lot = .ok (extractRows g lot fp (r + 1)) ∧
      (extractRows g lot fp (r + 1)).length = g.length - (r + 1) ∧
      ∀ k, k < g.length - (r + 1) →
        (extractRows g lot fp (r + 1)).get? k = some (buildRow g lot fp (r + 1 + k))) ∧
    ((∀ i, i < g.length → rowHasTestNo g i = false) →
      ∀ fp, resolveParams g = .ok fp → extract_dc_data g lot = .error .noTestNo) := by
  refine ⟨?_, ?_, ?_⟩
  · intro r hr
    obtain ⟨_, _, h3, h4⟩ := findFrom_eq_some _ _ _ _ hr
    exact ⟨h3, fun i hi => h4 i (by omega) hi⟩
  · intro r fp hok hr
    refine ⟨?_, ?_, ?_⟩
    · unfold extract_dc_data
      rw [hok, hr]
    · unfold extractRows
      simp
    · intro k hk
      unfold extractRows
      rw [List.get?_map, List.get?_range hk]
      rfl
  · intro hnone fp hok
    have hfr : findTestNoRow g = none := by
      unfold findTestNoRow
      exact findFrom_eq_none _ _ _ (fun i h1 h2 => hnone i (by omega))
    unfold extract_dc_data
    rw [hok, hfr]

/-- Witness for C7 at a concrete grid whose `Test No` cell sits in row
index 7 (embedded in surrounding text, a substring match). -/
theorem c7_witness :
    extract_dc_data [[], [some "CONT", some "Q"], [], [], [], [], [],
        [some "xTest No.x"], [none, some "7"]] "L" =
      .ok (extractRows [[], [some "CONT", some "Q"], [], [], [], [], [],
        [some "xTest No.x"], [none, some "7"]] "L" [(1, "Q")] 8) ∧
    rowHasTestNo [[], [some "CONT", some "Q"], [], [], [], [], [],
        [some "xTest No.x"], [none, some "7"]] 7 = true :=
  ⟨((c7_header_row_anchor [[], [some "CONT", some "Q"], [], [], [], [], [],
        [some "xTest No.x"], [none, some "7"]] "L").2.1 7 [(1, "Q")]
      (by decide) (by decide)).1,
   ((c7_header_row_anchor [[], [some "CONT", some "Q"], [], [], [], [], [],
        [some "xTest No.x"], [none, some "7"]] "L").1 7 (by decide)).1⟩

/-! ### Verbatim data slicing -/

theorem foldl_dictInsert_append (g : Grid) (r : Nat) :
    ∀ (fp : List (Nat × String)) (d0 : List (String × Cell)),
      (fp.map Prod.snd).Nodup →
      (∀ kv ∈ d0, kv.1 ∉ fp.map Prod.snd) →
      fp.foldl (fun d cn => dictInsert d cn.2 (getCell g r cn.1)) d0 =
        d0 ++ fp.map (fun cn => (cn.2, getCell g r cn.1)) := by
  intro fp
  induction fp with
  | nil => intro d0 _ _; simp
  | cons hd tl ih =>
    intro d0 hnodup hdisj
    obtain ⟨c0, n0⟩ := hd
    simp only [List.map_cons, List.nodup_cons] at hnodup
    have hins : dictInsert d0 n0 (getCell g r c0) = d0 ++ [(n0, getCell g r c0)] := by
      unfold dictInsert
      rw [if_neg ?_]
      simp only [Bool.not_eq_true]
      rw [List.any_eq_false]
      intro kv hkv
      have := hdisj kv hkv
      simp only [List.map_cons, List.mem_cons] at this
      simp only [beq_iff_eq]
      exact fun he => this (Or.inl he)
    simp only [List.foldl_cons, hins]
    rw [ih (d0 ++ [(n0, getCell g r c0)]) hnodup.2 ?_]
    · simp
    · intro kv hkv
      rcases List.mem_append.mp hkv with h1 | h2
      · have := hdisj kv h1
        simp only [List.map_cons, List.mem_cons] at this
        exact fun hm => this (Or.inr hm)
      · simp only [List.mem_singleton] at h2
        subst h2
        exact hnodup.1

/-- C3 (amended): per-file extraction copies every data-region cell
verbatim — no numeric coercion happens (non-numeric text survives) and no
row is dropped (one output row per grid row below the header anchor, even
when all parameter cells are missing); each row carries the batch id in
front. -/
theorem c3_verbatim_extraction (g : Grid) (lot : String)
    (fp : List (Nat × String)) (s : Nat) :
    (extractRows g lot fp s).length = g.length - s ∧
    (∀ k, k < g.length - s →
      (extractRows g lot fp s).get? k = some (buildRow g lot fp (s + k))) ∧
    ((fp.map Prod.snd).Nodup → "lot_ID" ∉ fp.map Prod.snd →
      ∀ r, buildRow g lot fp r =
        ("lot_ID", some lot) :: fp.map (fun cn => (cn.2, getCell g r cn.1))) := by
  refine ⟨?_, ?_, ?_⟩
  · unfold extractRows
    simp
  · intro k hk
    unfold extractRows
    rw [List.get?_map, List.get?_range hk]
    rfl
  · intro hnodup hlot r
    unfold buildRow
    rw [foldl_dictInsert_append g r fp [("lot_ID", some lot)] hnodup ?_]
    · simp
    · intro kv hkv
      simp only [List.mem_singleton] at hkv
      subst hkv
      exact hlot

/-- Counterexample to C3 as stated: a non-numeric data cell (`abc`) is not
mapped to missing — it survives verbatim — and a row whose only parameter
cell is missing is kept rather than dropped. -/
theorem c3_counterexample :
    extract_dc_data [[], [some "CONT", some "P"], [], [], [], [], [],
        [some "Test No."], [none, some "abc"], [none, none]] "L" =
      .ok [[("lot_ID", some "L"), ("P", some "abc")],
           [("lot_ID", some "L"), ("P", none)]] ∧
    specIsNumeric "abc" = false ∧
    (some "abc" : Cell) ≠ none :=
  ⟨by decide, by decide, by decide⟩

/-- Witness for C3 (amended) at a concrete grid and row. -/
theorem c3_witness :
    buildRow [[], [some "CONT", some "P"], [], [], [], [], [],
        [some "Test No."], [none, some "abc"], [none, none]] "L" [(1, "P")] 8 =
      ("lot_ID", some "L") :: [(1, "P")].map (fun cn =>
        (cn.2, getCell [[], [some "CONT", some "P"], [], [], [], [], [],
          [some "Test No."], [none, some "abc"], [none, none]] 8 cn.1)) :=
  (c3_verbatim_extraction [[], [some "CONT", some "P"], [], [], [], [], [],
      [some "Test No."], [none, some "abc"], [none, none]] "L" [(1, "P")] 8).2.2
    (by decide) (by decide) 8

/-! ### Zip and filter support for the mergers -/

theorem map_snd_filter_zip {α β : Type} (q : α × β → Bool) (p : β → Bool)
    (hq : ∀ a b, q (a, b) = p b) :
    ∀ (l1 : List α) (l2 : List β), l1.length = l2.length →
      ((l1.zip l2).filter q).map Prod.snd = l2.filter p := by
  intro l1
  induction l1 with
  | nil =>
    intro l2 h
    cases l2 with
    | nil => rfl
    | cons b t => simp at h
  | cons a t ih =>
    intro l2 h
    cases l2 with
    | nil => simp at h
    | cons b t2 =>
      simp only [List.zip_cons_cons, List.filter_cons, hq a b]
      have ht : t.length = t2.length := by
        simpa using h
      by_cases hb : p b = true
      · rw [hb]
        simp only [if_true, List.map_cons, ih t2 ht]
      · rw [Bool.eq_false_iff.mpr hb]
        simp only [Bool.false_eq_true, if_false, ih t2 ht]

theorem pairwise_fst_lt_zip {α : Type} :
    ∀ (l1 : List Nat) (l2 : List α), l1.Pairwise (· < ·) →
      (l1.zip l2).Pairwise (fun x y => x.1 < y.1) := by
  intro l1
  induction l1 with
  | nil => intro l2 _; simp
  | cons a t ih =>
    intro l2 hp
    cases l2 with
    | nil => simp
    | cons b t2 =>
      rw [List.zip_cons_cons]
      obtain ⟨ha, ht⟩ := List.pairwise_cons.mp hp
      refine List.Pairwise.cons ?_ (ih t2 ht)
      intro y hy
      obtain ⟨y1, y2⟩ := y
      exact ha y1 (List.of_mem_zip hy).1

/-- C2 (amended): `clean_and_format_dc` assigns `NUM` over *all*
concatenated rows first and only then drops rows with a missing `lot_ID`,
keeping their pre-assigned numbers: the surviving `NUM` values are strictly
increasing and drawn from `1..M` (`M` the pre-filter row count), the
surviving row contents are exactly the rows with a present `lot_ID` in
order, and whenever every row has a present `lot_ID` (as is the case for
every table the extraction produces) the final numbers are exactly
`1..N`. -/
theorem c2_num_before_drop (rows : List (Option String × List (String × Cell))) :
    ((clean_and_format_dc rows).map (fun x => x.1)).Pairwise (· < ·) ∧
    (∀ x ∈ clean_and_format_dc rows, 1 ≤ x.1 ∧ x.1 ≤ rows.length) ∧
    ((clean_and_format_dc rows).map (fun x => x.2)) =
      (rows.filter (fun r => !r.1.isNone)).map (fun r => (astypeStr r.1, r.2)) ∧
    ((∀ r ∈ rows, r.1.isSome) →
      (clean_and_format_dc rows).map (fun x => x.1) =
        (List.range rows.length).map (fun i => i + 1)) := by
  by_cases hemp : rows.isEmpty
  · obtain rfl : rows = [] := List.isEmpty_iff.mp hemp
    refine ⟨?_, ?_, ?_, ?_⟩ <;> simp [clean_and_format_dc]
  · have hcf : clean_and_format_dc rows =
        (((List.range rows.length).map (fun i => i + 1)).zip rows
          |>.filter (fun x => !x.2.1.isNone)).map
          (fun x => (x.1, astypeStr x.2.1, x.2.2)) := by
      unfold clean_and_format_dc
      rw [if_neg hemp]
    rw [hcf]
    have hlen : ((List.range rows.length).map (fun i => i + 1)).length = rows.length := by
      simp
    refine ⟨?_, ?_, ?_, ?_⟩
    · rw [List.map_map]
      have h1 : ((List.range rows.length).map (fun i => i + 1)).Pairwise (· < ·) :=
        List.Pairwise.map _ (fun a b h => by omega) (List.pairwise_lt_range _)
      have h2 := pairwise_fst_lt_zip _ rows h1
      have h3 := h2.filter (fun x => !x.2.1.isNone)
      exact (List.pairwise_map.mpr (by
        exact h3.imp (fun h => h)))
    · intro x hx
      obtain ⟨y, hy, rfl⟩ := List.mem_map.mp hx
      have hyz := (List.mem_filter.mp hy).1
      obtain ⟨y1, y2⟩ := y
      have hy1 := (List.of_mem_zip hyz).1
      obtain ⟨i, hi, rfl⟩ := List.mem_map.mp hy1
      have := List.mem_range.mp hi
      constructor <;> simp <;> omega
    · rw [List.map_map]
      have hms := map_snd_filter_zip (fun x => !x.2.1.isNone)
        (fun r => !r.1.isNone) (fun a b => rfl)
        ((List.range rows.length).map (fun i => i + 1)) rows hlen
      calc (((List.range rows.length).map (fun i => i + 1)).zip rows
              |>.filter (fun x => !x.2.1.isNone)).map
            ((fun x => x.2) ∘ fun x => (x.1, astypeStr x.2.1, x.2.2))
          = (((List.range rows.length).map (fun i => i + 1)).zip rows
              |>.filter (fun x => !x.2.1.isNone)).map
            ((fun r => (astypeStr r.1, r.2)) ∘ Prod.snd) := rfl
        _ = ((((List.range rows.length).map (fun i => i + 1)).zip rows
              |>.filter (fun x => !x.2.1.isNone)).map Prod.snd).map
            (fun r => (astypeStr r.1, r.2)) := by rw [List.map_map]
        _ = (rows.filter (fun r => !r.1.isNone)).map
            (fun r => (astypeStr r.1, r.2)) := by rw [hms]
    · intro hall
      have hfe : (((List.range rows.length).map (fun i => i + 1)).zip rows).filter
          (fun x => !x.2.1.isNone) =
          ((List.range rows.length).map (fun i => i + 1)).zip rows := by
        rw [List.filter_eq_self]
        intro a ha
        obtain ⟨a1, a2⟩ := a
        have := (List.of_mem_zip ha).2
        have hsome := hall a2 this
        obtain ⟨w, hw⟩ := Option.isSome_iff_exists.mp hsome
        rw [hw]
        rfl
      rw [hfe, List.map_map]
      have hcomp : ((fun x => x.1) ∘
          fun x : Nat × (Option String × List (String × Cell)) =>
            (x.1, astypeStr x.2.1, x.2.2)) =
          (Prod.fst : Nat × (Option String × List (String × Cell)) → Nat) := rfl
      rw [hcomp, List.map_fst_zip _ rows (le_of_eq hlen)]

/-- Counterexample to C2 as stated: with a middle row whose `lot_ID` is
missing, the final `NUM` column is `[1, 3]`, not `1..N = [1, 2]` — the
ordinal is assigned before the drop, leaving a gap. -/
theorem c2_counterexample :
    clean_and_format_dc [(some "A", []), (none, []), (some "B", [])] =
      [(1, some "A", []), (3, some "B", [])] ∧
    (clean_and_format_dc [(some "A", []), (none, []), (some "B", [])]).map
        (fun x => x.1) ≠
      (List.range (clean_and_format_dc [(some "A", []), (none, []),
        (some "B", [])]).length).map (fun i => i + 1) :=
  ⟨by decide, by decide⟩

/-- Witness for C2 (amended): with every `lot_ID` present the final numbers
are exactly `1..N`. -/
theorem c2_witness :
    (clean_and_format_dc [((some "A" : Option String),
        ([] : List (String × Cell)))]).map (fun x => x.1) =
      (List.range 1).map (fun i => i + 1) :=
  (c2_num_before_drop [(some "A", [])]).2.2.2 (by decide)

set_option maxHeartbeats 1000000 in
/-- C10: every row of the final cleaned RG table has an `RG(R)` value
strictly between 0 and 1000; rows outside that range are silently removed
(the cleaner is a total function, there is no error path), and `NUM` is
reassigned `1..N` over the surviving rows in order. -/
theorem c10_rg_range_filter (rows : List (String × ℚ)) :
    (∀ x ∈ clean_and_format_rg rows, 0 < x.2.2 ∧ x.2.2 < 1000) ∧
    (clean_and_format_rg rows).map (fun x => x.2) =
      rows.filter (fun r => decide (0 < r.2) && decide (r.2 < 1000)) ∧
    (clean_and_format_rg rows).map (fun x => x.1) =
      (List.range (rows.filter (fun r =>
        decide (0 < r.2) && decide (r.2 < 1000))).length).map (fun i => i + 1) := by
  by_cases hemp : rows.isEmpty
  · obtain rfl : rows = [] := List.isEmpty_iff.mp hemp
    refine ⟨?_, ?_, ?_⟩ <;> simp [clean_and_format_rg]
  · have hcf : clean_and_format_rg rows =
        List.map (fun p => (p.1, p.2.2))
          (((List.range (((((List.range rows.length).map (fun i => i + 1)).zip
              rows).filter (fun r => decide (0 < r.2.2))).filter
              (fun r => decide (r.2.2 < 1000))).length).map (fun i => i + 1)).zip
            (((((List.range rows.length).map (fun i => i + 1)).zip
              rows).filter (fun r => decide (0 < r.2.2))).filter
              (fun r => decide (r.2.2 < 1000)))) := by
      unfold clean_and_format_rg
      rw [if_neg hemp]
    set F := (((List.range rows.length).map (fun i => i + 1)).zip rows
      |>.filter (fun r => decide (0 < r.2.2))).filter
        (fun r => decide (r.2.2 < 1000)) with hF
    have hFsnd : F.map Prod.snd = rows.filter (fun r =>
        decide (0 < r.2) && decide (r.2 < 1000)) := by
      rw [hF, List.filter_filter]
      rw [map_snd_filter_zip (fun a => decide (a.2.2 < 1000) && decide (0 < a.2.2))
        (fun r => decide (r.2 < 1000) && decide (0 < r.2)) (fun a b => rfl)
        _ rows (by simp)]
      refine List.filter_congr ?_
      intro a _
      exact Bool.and_comm _ _
    have hlen2 : ((List.range F.length).map (fun i => i + 1)).length = F.length := by
      simp
    have hsnd : (clean_and_format_rg rows).map (fun x => x.2) =
        rows.filter (fun r => decide (0 < r.2) && decide (r.2 < 1000)) := by
      rw [hcf, List.map_map]
      have hc : ((fun x => x.2) ∘ fun p : Nat × (Nat × String × ℚ) => (p.1, p.2.2)) =
          ((fun y : Nat × String × ℚ => y.2) ∘ Prod.snd) := rfl
      rw [hc, ← List.map_map, List.map_snd_zip _ F (le_of_eq hlen2.symm)]
      have hm : F.map (fun y : Nat × String × ℚ => y.2) = F.map Prod.snd := rfl
      rw [hm, hFsnd]
    have hfst : (clean_and_format_rg rows).map (fun x => x.1) =
        (List.range F.length).map (fun i => i + 1) := by
      rw [hcf, List.map_map]
      have hc : ((fun x => x.1) ∘ fun p : Nat × (Nat × String × ℚ) => (p.1, p.2.2)) =
          (Prod.fst : Nat × (Nat × String × ℚ) → Nat) := rfl
      rw [hc, List.map_fst_zip _ _ (le_of_eq hlen2)]
    have hFlen : F.length = (rows.filter (fun r => decide (0 < r.2) &&
        decide (r.2 < 1000))).length := by
      have := congrArg List.length hFsnd
      simpa using this
    refine ⟨?_, hsnd, ?_⟩
    · intro x hx
      have hx2 : x.2 ∈ (clean_and_format_rg rows).map (fun x => x.2) :=
        List.mem_map_of_mem _ hx
      rw [hsnd] at hx2
      have hp := List.of_mem_filter hx2
      simp only [Bool.and_eq_true, decide_eq_true_eq] at hp
      exact hp
    · rw [hfst, hFlen]

/-- Witness for C10 at a concrete merged RG table. -/
theorem c10_witness :
    0 < ((1, "a", (5 : ℚ)) : Nat × String × ℚ).2.2 ∧
    ((1, "a", (5 : ℚ)) : Nat × String × ℚ).2.2 < 1000 :=
  (c10_rg_range_filter [("a", 5), ("b", 0)]).1 (1, "a", 5) (by decide)

end DataIGBT
